/-
  Verification of the A2A (agent-to-agent) negotiation protocol implemented in
  this repository: the message schema, the Requester (TravelAgent) and Provider
  (HotelAgent) handlers from runAgents.js and its variants, the subscription
  callback, the settlement call from demo.js, and the pending-request map of
  the WebSocket orchestrator in index.js.

  Modelling conventions:
  * JavaScript values carried in message `content` are embedded as `JsonVal`
    (JSON structured data; JS `undefined` appears only as an absent field,
    i.e. `Option.none` from a lookup).
  * JS numbers are embedded as ℚ; the arithmetic the handlers perform
    (integer night counts, small decimal prices) is exact in ℚ as in IEEE
    doubles at these magnitudes.  NaN propagation from unparsable dates and
    numeric coercion of non-number operands are not modelled; no theorem
    below evaluates a handler on such inputs.
  * Handlers are embedded as functions from the received envelope to the list
    of externally visible actions (topic publications and HBAR transfers);
    `setTimeout` pacing delays and console logging are dropped.
  * A branch of the source that only logs produces `[]`.
-/
import Mathlib

namespace A2A

/-- JSON-like structured value: the payload shape of `message.content` and of
whole envelopes on the wire. -/
inductive JsonVal where
  | null : JsonVal
  | bool : Bool → JsonVal
  | num : ℚ → JsonVal
  | str : String → JsonVal
  | arr : List JsonVal → JsonVal
  | obj : List (String × JsonVal) → JsonVal

/-- Field lookup on an object; `none` both for a missing key and for a
non-object receiver (where JS property access yields `undefined`). -/
def JsonVal.get : JsonVal → String → Option JsonVal
  | .obj fs, k => fs.lookup k
  | _, _ => none

def JsonVal.asStr : JsonVal → Option String
  | .str s => some s
  | _ => none

def JsonVal.asNum : JsonVal → Option ℚ
  | .num q => some q
  | _ => none

def JsonVal.idx : JsonVal → Nat → Option JsonVal
  | .arr xs, i => xs.get? i
  | _, _ => none

/-- JS truthiness of a JSON value. -/
def JsonVal.truthy : JsonVal → Bool
  | .null => false
  | .bool b => b
  | .num q => decide (q ≠ 0)
  | .str s => decide (s ≠ "")
  | .arr _ => true
  | .obj _ => true

def truthyOpt : Option JsonVal → Bool
  | none => false
  | some v => v.truthy

/-- JS property access `v[k]` as performed on a parsed wire value:
`none` models a thrown TypeError (receiver is `null`), `some none` models
`undefined`, `some (some x)` a present field. -/
def jsGet : JsonVal → String → Option (Option JsonVal)
  | .null, _ => none
  | .obj fs, k => some (fs.lookup k)
  | _, _ => some none

/-- JS strict equality of a possibly-undefined value against a string. -/
def jsEqStrOpt (x : Option JsonVal) (s : String) : Bool :=
  match x with
  | some (.str t) => t = s
  | _ => false

/-- Decimal rendering of an embedded JS number, standing in for
`Number.prototype.toString`; injective on ℚ, which is all the theorems use. -/
def numStr (q : ℚ) : String :=
  if q.den = 1 then toString q.num else toString q.num ++ "/" ++ toString q.den

/-- JS string coercion of a possibly-undefined content field, as in
`message.content.amount + " HBAR"`.  Element-wise rendering of nested arrays
is not modelled; no theorem evaluates it on an array or object. -/
def jsToStr : Option JsonVal → String
  | none => "undefined"
  | some .null => "null"
  | some (.bool true) => "true"
  | some (.bool false) => "false"
  | some (.num q) => numStr q
  | some (.str s) => s
  | some (.arr _) => ""
  | some (.obj _) => "[object Object]"

/-- Sender block of an A2A envelope. -/
structure Sender where
  agent_id : String
  account_id : String
deriving DecidableEq, Repr

/-- A well-formed A2A envelope as constructed by the `A2AMessage` class of
runAgents.js / demo.js / index.js. -/
structure Msg where
  id : String
  timestamp : String
  protocol_version : String
  message_type : String
  sender : Sender
  content : JsonVal

/-- An externally visible effect of a handler: a topic publication
(`sendMessage type content`) or an HBAR transfer
(`sendPayment amount recipient memo`). -/
inductive Action where
  | publish : String → JsonVal → Action
  | pay : ℚ → String → String → Action

/-- First field of `message.content` read as a string, as in
`message.content.status === "available"`. -/
def contentStr (m : Msg) (k : String) : Option String :=
  (m.content.get k).bind JsonVal.asStr

/- ---------------------------------------------------------------------
   Calendar dates: `new Date("YYYY-MM-DD")` parses as UTC midnight; the
   value is milliseconds since the Unix epoch.
   --------------------------------------------------------------------- -/

def isDigit (c : Char) : Bool := '0' ≤ c ∧ c ≤ '9'

def digitVal (c : Char) : Nat := c.toNat - '0'.toNat

def natOfDigits (cs : List Char) : Nat :=
  cs.foldl (fun a c => a * 10 + digitVal c) 0

def isLeap (y : Nat) : Bool := (y % 4 = 0 ∧ y % 100 ≠ 0) ∨ y % 400 = 0

def daysInMonth (y mo : Nat) : Nat :=
  if mo = 2 then (if isLeap y then 29 else 28)
  else if mo = 4 ∨ mo = 6 ∨ mo = 9 ∨ mo = 11 then 30
  else 31

/-- Days from the civil epoch 1970-01-01 (Hinnant's algorithm). -/
def daysFromCivil (y mo d : ℤ) : ℤ :=
  let y1 : ℤ := if mo ≤ 2 then y - 1 else y
  let era : ℤ := Int.fdiv y1 400
  let yoe : ℤ := y1 - era * 400
  let mp : ℤ := if 2 < mo then mo - 3 else mo + 9
  let doy : ℤ := Int.fdiv (153 * mp + 2) 5 + d - 1
  let doe : ℤ := yoe * 365 + Int.fdiv yoe 4 - Int.fdiv yoe 100 + doy
  era * 146097 + doe - 719468

/-- Value of `new Date(s).getTime()` for an ISO `YYYY-MM-DD` string (UTC midnight, in
milliseconds); `none` models an Invalid Date. -/
def parseDate (s : String) : Option ℤ :=
  match s.toList with
  | [y1, y2, y3, y4, '-', m1, m2, '-', d1, d2] =>
    if ([y1, y2, y3, y4, m1, m2, d1, d2].all isDigit) then
      let y := natOfDigits [y1, y2, y3, y4]
      let mo := natOfDigits [m1, m2]
      let d := natOfDigits [d1, d2]
      if 1 ≤ mo ∧ mo ≤ 12 ∧ 1 ≤ d ∧ d ≤ daysInMonth y mo then
        some (86400000 * daysFromCivil (y : ℤ) (mo : ℤ) (d : ℤ))
      else none
    else none
  | _ => none

/-- A date field of `content.details` put through `new Date(...)`; the source
only ever supplies `YYYY-MM-DD` strings here. -/
def dateOf : Option JsonVal → Option ℤ
  | some (.str s) => parseDate s
  | _ => none

/-- Computes `Math.ceil(a / b)` for the exact integer quotient used by the night
computation. -/
def jsCeilDiv (a : ℤ) (b : ℕ) : ℤ := -(Int.fdiv (-a) (b : ℤ))

/- ---------------------------------------------------------------------
   Provider role: HotelAgent.handleMessage from runAgents.js.
   --------------------------------------------------------------------- -/

/-- A catalog entry from the `HOTELS` list of runAgents.js. -/
structure Hotel where
  pricePerNight : ℚ
  minPrice : ℚ

/-- The `response{status:"available"}` content the Provider publishes for a
booking request (runAgents.js). -/
def hotelOfferContent (hotel : Hotel) (uuid : String) (nights : ℤ) : JsonVal :=
  .obj
    [("status", .str "available"),
     ("options", .arr [JsonVal.obj
        [("room_type", .str "Standard Room"),
         ("price_per_night", .num hotel.pricePerNight),
         ("currency", .str "HBAR"),
         ("total_nights", .num (nights : ℚ)),
         ("total_price", .num (hotel.pricePerNight * (nights : ℚ)))]]),
     ("booking_reference", .str ("HOTEL-" ++ uuid.take 8))]

/-- Embeds `HotelAgent.handleMessage` of runAgents.js as a function from the received
envelope to the published/settled actions.  `uuid` supplies the random
`crypto.randomUUID()` suffix.  The `acceptance` branch of the source only
logs, hence contributes no action; requests whose dates do not parse are
dropped rather than answered with NaN fields (no theorem covers them). -/
def hotelHandle (hotel : Hotel) (uuid : String) (m : Msg) : List Action :=
  (if m.message_type = "request" then
    match m.content.get "details" with
    | some d =>
      match dateOf (d.get "check_in"), dateOf (d.get "check_out") with
      | some tIn, some tOut =>
        [Action.publish "response"
          (hotelOfferContent hotel uuid (jsCeilDiv (tOut - tIn) 86400000))]
      | _, _ => []
    | none => []
  else []) ++
  (if m.message_type = "negotiation" ∧ truthyOpt (m.content.get "counter_offer") then
    match m.content.get "counter_offer" with
    | some co =>
      match (co.get "total_price").bind JsonVal.asNum with
      | some p =>
        if hotel.minPrice ≤ p then
          [Action.publish "negotiation" (.obj
            [("final_offer", JsonVal.obj
               [("total_price", .num p), ("currency", .str "HBAR")]),
             ("status", .str "accepted")])]
        else
          [Action.publish "negotiation" (.obj
            [("status", .str "rejected"),
             ("rejected_price", .num p),
             ("minimum_price", .num hotel.minPrice)])]
      | none =>
        [Action.publish "negotiation" (.obj
          [("status", .str "rejected"),
           ("minimum_price", .num hotel.minPrice)])]
    | none => []
  else []) ++
  (if m.message_type = "payment" then
    [Action.publish "response" (.obj
      [("status", .str "confirmed"),
       ("booking_details", JsonVal.obj
         [("confirmation_number", .str ("CONF-" ++ uuid.take 8)),
          ("total_paid", .str (jsToStr (m.content.get "amount") ++ " HBAR"))])])]
  else [])

/-- Embeds `HotelAgent.handleMessage` of the part_004 / index.js variant: the request
branch additionally requires `service === "hotel_booking"` but answers with a
fixed `pricePerNight = 3`, `nights = 2` offer, ignoring the requested dates;
the negotiation branch uses the constant minimum 4 and its rejection carries
no `rejected_price`; the payment branch matches runAgents.js. -/
def hotelHandleP4 (uuid : String) (m : Msg) : List Action :=
  (if m.message_type = "request" ∧ contentStr m "service" = some "hotel_booking" then
    [Action.publish "response" (.obj
      [("status", .str "available"),
       ("options", .arr [JsonVal.obj
          [("room_type", .str "Standard Room"),
           ("price_per_night", .num 3),
           ("total_nights", .num 2),
           ("total_price", .num 6),
           ("currency", .str "HBAR")]]),
       ("booking_reference", .str ("HOTEL-" ++ uuid.take 8))])]
  else []) ++
  (if m.message_type = "negotiation" ∧ truthyOpt (m.content.get "counter_offer") then
    match m.content.get "counter_offer" with
    | some co =>
      match (co.get "total_price").bind JsonVal.asNum with
      | some p =>
        if (4 : ℚ) ≤ p then
          [Action.publish "negotiation" (.obj
            [("final_offer", JsonVal.obj
               [("total_price", .num p), ("currency", .str "HBAR")]),
             ("status", .str "accepted")])]
        else
          [Action.publish "negotiation" (.obj
            [("status", .str "rejected"),
             ("minimum_price", .num 4)])]
      | none =>
        [Action.publish "negotiation" (.obj
          [("status", .str "rejected"),
           ("minimum_price", .num 4)])]
    | none => []
  else []) ++
  (if m.message_type = "payment" then
    [Action.publish "response" (.obj
      [("status", .str "confirmed"),
       ("booking_details", JsonVal.obj
         [("confirmation_number", .str ("CONF-" ++ uuid.take 8)),
          ("total_paid", .str (jsToStr (m.content.get "amount") ++ " HBAR"))])])]
  else [])

/-- Field `k` of `options[0]` of the single response published by a list of
actions; used to state what a Provider offered. -/
def offeredField (acts : List Action) (k : String) : Option JsonVal :=
  match acts with
  | [Action.publish _ c] => ((c.get "options").bind (fun v => v.idx 0)).bind (fun o => o.get k)
  | _ => none

/- ---------------------------------------------------------------------
   Requester role: TravelAgent.handleMessage from runAgents.js.
   --------------------------------------------------------------------- -/

/-- Optional field of an outgoing object: JS object literals whose value is
`undefined` are dropped by `JSON.stringify`. -/
def optField (k : String) : Option JsonVal → List (String × JsonVal)
  | some v => [(k, v)]
  | none => []

/-- The `payment` notice content the Requester publishes after a successful
negotiation (runAgents.js); `amount` is `price.toString()`. -/
def paymentNoticeContent (price : ℚ) (recipient : String) : JsonVal :=
  .obj
    [("amount", .str (numStr price)),
     ("currency", .str "HBAR"),
     ("recipient", .str recipient),
     ("description", .str "Hotel booking payment")]

/-- Embeds `TravelAgent.handleMessage` of runAgents.js as a function from the
received envelope to the published/settled actions.  The
`negotiation{status:"rejected"}` and `response{status:"confirmed"}` branches
of the source only log, hence contribute no action. -/
def travelHandle (userOffer : ℚ) (m : Msg) : List Action :=
  (if m.message_type = "response" ∧ contentStr m "status" = some "available" then
    match (m.content.get "options").bind (fun v => v.idx 0) with
    | some opt =>
      match (opt.get "total_price").bind JsonVal.asNum with
      | some p =>
        if p ≤ userOffer then
          [Action.publish "acceptance" (.obj
            ([("accepted_price", .num p), ("currency", .str "HBAR")] ++
             optField "booking_reference" (m.content.get "booking_reference")))]
        else
          [Action.publish "negotiation" (.obj
            [("counter_offer", JsonVal.obj
               [("total_price", .num userOffer), ("currency", .str "HBAR")]),
             ("original_price", .num p)])]
      | none =>
        [Action.publish "negotiation" (.obj
          [("counter_offer", JsonVal.obj
             [("total_price", .num userOffer), ("currency", .str "HBAR")])])]
    | none => []
  else []) ++
  (if m.message_type = "negotiation" ∧ contentStr m "status" = some "accepted" then
    match ((m.content.get "final_offer").bind (fun v => v.get "total_price")).bind JsonVal.asNum with
    | some price =>
      [Action.publish "payment" (paymentNoticeContent price m.sender.account_id),
       Action.pay price m.sender.account_id "A2A Hotel Booking"]
    | none => []
  else [])

/-- The Requester's negotiation states named in spec §4.3. -/
inductive ReqState where
  | Idle
  | AwaitingOffer
  | AwaitingNegotiationResult
  | AwaitingConfirmation
  | Done
deriving DecidableEq, Repr

/-- Offered total of the first option of an availability response. -/
def offeredTotal (m : Msg) : Option ℚ :=
  (((m.content.get "options").bind (fun v => v.idx 0)).bind
    (fun o => o.get "total_price")).bind JsonVal.asNum

/-- Modelled from the spec: the Requester state machine of §4.3, which the
source keeps implicit in its sequential, stateless handler (the code reacts
to each envelope by type alone; this map records which protocol position the
spec assigns after each reaction). -/
def requesterNextState (userOffer : ℚ) (s : ReqState) (m : Msg) : ReqState :=
  match s with
  | .AwaitingOffer =>
    if m.message_type = "response" ∧ contentStr m "status" = some "available" then
      match offeredTotal m with
      | some p => if p ≤ userOffer then .AwaitingConfirmation else .AwaitingNegotiationResult
      | none => s
    else s
  | .AwaitingNegotiationResult =>
    if m.message_type = "negotiation" ∧ contentStr m "status" = some "accepted" then
      .AwaitingConfirmation
    else if m.message_type = "negotiation" ∧ contentStr m "status" = some "rejected" then
      .Idle
    else s
  | .AwaitingConfirmation =>
    if m.message_type = "response" ∧ contentStr m "status" = some "confirmed" then
      .Done
    else s
  | s0 => s0

/-- One Requester step: the actions are those of the embedded source handler
(which ignores the state); the state advances per the spec machine. -/
def travelStep (userOffer : ℚ) (s : ReqState) (m : Msg) : ReqState × List Action :=
  (requesterNextState userOffer s m, travelHandle userOffer m)

/- ---------------------------------------------------------------------
   The wire: JSON text parsing, modelling the platform JSON.parse that the
   subscription callbacks apply to incoming topic message bytes.
   --------------------------------------------------------------------- -/

def quoteChar : Char := Char.ofNat 34

def backslashChar : Char := Char.ofNat 92

def lbraceChar : Char := Char.ofNat 123

def rbraceChar : Char := Char.ofNat 125

def skipWs : List Char → List Char
  | [] => []
  | c :: cs => if c = ' ' ∨ c = '\t' ∨ c = '\n' ∨ c = '\r' then skipWs cs else c :: cs

def hexVal (c : Char) : Option Nat :=
  if isDigit c then some (digitVal c)
  else if 'a' ≤ c ∧ c ≤ 'f' then some (c.toNat - 'a'.toNat + 10)
  else if 'A' ≤ c ∧ c ≤ 'F' then some (c.toNat - 'A'.toNat + 10)
  else none

/-- Consumes a maximal digit run, returning its value, its length, and the
remaining input. -/
def parseDigitsAux : Nat → Nat → List Char → Nat × Nat × List Char
  | acc, n, c :: cs =>
    if isDigit c then parseDigitsAux (acc * 10 + digitVal c) (n + 1) cs
    else (acc, n, c :: cs)
  | acc, n, [] => (acc, n, [])

/-- Consumes the body of a JSON string literal after its opening quote. -/
def parseStringBody : List Char → List Char → Option (String × List Char)
  | acc, c :: cs =>
    if c = quoteChar then some (String.mk acc.reverse, cs)
    else if c = backslashChar then
      match cs with
      | e :: cs2 =>
        if e = quoteChar ∨ e = backslashChar ∨ e = '/' then parseStringBody (e :: acc) cs2
        else if e = 'n' then parseStringBody ('\n' :: acc) cs2
        else if e = 't' then parseStringBody ('\t' :: acc) cs2
        else if e = 'r' then parseStringBody ('\r' :: acc) cs2
        else if e = 'b' then parseStringBody (Char.ofNat 8 :: acc) cs2
        else if e = 'f' then parseStringBody (Char.ofNat 12 :: acc) cs2
        else if e = 'u' then
          match cs2 with
          | h1 :: h2 :: h3 :: h4 :: cs3 =>
            match hexVal h1, hexVal h2, hexVal h3, hexVal h4 with
            | some a, some b, some c3, some d =>
              parseStringBody (Char.ofNat (((a * 16 + b) * 16 + c3) * 16 + d) :: acc) cs3
            | _, _, _, _ => none
          | _ => none
        else none
      | [] => none
    else if c.toNat < 32 then none
    else parseStringBody (c :: acc) cs
  | _, [] => none

/-- Parses a JSON number into ℚ. -/
def parseNumTok (cs : List Char) : Option (ℚ × List Char) :=
  let signStep : Bool × List Char :=
    match cs with
    | '-' :: r => (true, r)
    | _ => (false, cs)
  let neg := signStep.1
  let cs1 := signStep.2
  match cs1 with
  | c :: _ =>
    if isDigit c then
      let ipStep := parseDigitsAux 0 0 cs1
      let ip := ipStep.1
      let cs2 := ipStep.2.2
      let fracStep : Option (ℚ × List Char) :=
        match cs2 with
        | '.' :: r =>
          match r with
          | rc :: _ =>
            if isDigit rc then
              let fpStep := parseDigitsAux 0 0 r
              some (((ip : ℚ) + (fpStep.1 : ℚ) / ((10 : ℚ) ^ fpStep.2.1)), fpStep.2.2)
            else none
          | [] => none
        | _ => some ((ip : ℚ), cs2)
      match fracStep with
      | none => none
      | some (q1, cs3) =>
        let expStep : Option (ℚ × List Char) :=
          match cs3 with
          | e :: r =>
            if e = 'e' ∨ e = 'E' then
              let esignStep : Bool × List Char :=
                match r with
                | '+' :: rr => (false, rr)
                | '-' :: rr => (true, rr)
                | _ => (false, r)
              match esignStep.2 with
              | ec :: _ =>
                if isDigit ec then
                  let evStep := parseDigitsAux 0 0 esignStep.2
                  some ((if esignStep.1 then q1 / ((10 : ℚ) ^ evStep.1)
                         else q1 * ((10 : ℚ) ^ evStep.1)), evStep.2.2)
                else none
              | [] => none
            else some (q1, cs3)
          | [] => some (q1, cs3)
        match expStep with
        | none => none
        | some (q2, cs4) => some ((if neg then -q2 else q2), cs4)
    else none
  | [] => none

mutual

/-- Parses one JSON value (fuel-indexed recursive descent). -/
def parseVal : Nat → List Char → Option (JsonVal × List Char)
  | 0, _ => none
  | fuel + 1, cs =>
    match skipWs cs with
    | 'n' :: 'u' :: 'l' :: 'l' :: r => some (.null, r)
    | 't' :: 'r' :: 'u' :: 'e' :: r => some (.bool true, r)
    | 'f' :: 'a' :: 'l' :: 's' :: 'e' :: r => some (.bool false, r)
    | c :: r =>
      if c = quoteChar then
        (parseStringBody [] r).map (fun p => (JsonVal.str p.1, p.2))
      else if c = lbraceChar then
        match skipWs r with
        | c2 :: r2 =>
          if c2 = rbraceChar then some (.obj [], r2)
          else (parseFieldList fuel (skipWs r)).map (fun p => (JsonVal.obj p.1, p.2))
        | [] => none
      else if c = '[' then
        match skipWs r with
        | ']' :: r2 => some (.arr [], r2)
        | _ => (parseItemList fuel (skipWs r)).map (fun p => (JsonVal.arr p.1, p.2))
      else
        (parseNumTok (c :: r)).map (fun p => (JsonVal.num p.1, p.2))
    | [] => none

/-- Parses the comma-separated items of a non-empty JSON array. -/
def parseItemList : Nat → List Char → Option (List JsonVal × List Char)
  | 0, _ => none
  | fuel + 1, cs =>
    match parseVal fuel cs with
    | none => none
    | some (v, r1) =>
      match skipWs r1 with
      | c :: r2 =>
        if c = ',' then (parseItemList fuel r2).map (fun p => (v :: p.1, p.2))
        else if c = ']' then some ([v], r2)
        else none
      | [] => none

/-- Parses the comma-separated key/value pairs of a non-empty JSON object. -/
def parseFieldList : Nat → List Char → Option (List (String × JsonVal) × List Char)
  | 0, _ => none
  | fuel + 1, cs =>
    match cs with
    | c :: r =>
      if c = quoteChar then
        match parseStringBody [] r with
        | none => none
        | some (k, r1) =>
          match skipWs r1 with
          | ':' :: r2 =>
            match parseVal fuel r2 with
            | none => none
            | some (v, r3) =>
              match skipWs r3 with
              | c4 :: r4 =>
                if c4 = ',' then
                  (parseFieldList fuel (skipWs r4)).map (fun p => ((k, v) :: p.1, p.2))
                else if c4 = rbraceChar then some ([(k, v)], r4)
                else none
              | [] => none
          | _ => none
      else none
    | [] => none

end

/-- Embeds the platform `JSON.parse` applied to the UTF-8 text of a topic
message. -/
def jsonParse (s : String) : Option JsonVal :=
  let cs := s.toList
  match parseVal (cs.length + 1) cs with
  | some (v, rest) => if (skipWs rest).isEmpty then some v else none
  | none => none

/- ---------------------------------------------------------------------
   Channel subscription: Agent.startListening from runAgents.js (and the
   identical callbacks of index.js / part_004).
   --------------------------------------------------------------------- -/

/-- One invocation of the subscription callback of `Agent.startListening`
(runAgents.js): parse the message text, drop it when parsing or the
`sender.account_id` access throws (the `catch` arm), drop it when it came
from the agent's own account, otherwise record it in `receivedMessages` and
hand it to `handleMessage`.  The first component of the result is the new
`receivedMessages`; the second is the envelope passed to `handleMessage`,
`none` when no handler runs. -/
def receiveStep (accountId : String) (st : List JsonVal) (contents : String) :
    List JsonVal × Option JsonVal :=
  match jsonParse contents with
  | none => (st, none)
  | some v =>
    match jsGet v "sender" with
    | none => (st, none)
    | some senderOpt =>
      match senderOpt with
      | none => (st, none)
      | some sv =>
        match jsGet sv "account_id" with
        | none => (st, none)
        | some aidOpt =>
          if jsEqStrOpt aidOpt accountId then (st, none)
          else (st ++ [v], some v)

/- ---------------------------------------------------------------------
   Message schema of part_000: A2AMessage with metadata, toJSON/fromJSON.
   --------------------------------------------------------------------- -/

namespace Part000

/-- Ambient process environment that the part_000 `A2AMessage` constructor
reads its sender identity from (`AGENT_ID` with its default, and
`HEDERA_ACCOUNT_ID`). -/
structure Env where
  agentId : String
  accountId : String

/-- The part_000 `A2AMessage`: the runAgents.js envelope plus a `metadata`
object. -/
structure A2AMessage where
  id : String
  timestamp : String
  protocol_version : String
  message_type : String
  sender : Sender
  content : JsonVal
  metadata : List (String × JsonVal)

/-- JS object-spread update `{...fs, k: v}`: an existing key keeps its
position with the new value, a new key is appended. -/
def objSet (fs : List (String × JsonVal)) (k : String) (v : JsonVal) :
    List (String × JsonVal) :=
  if fs.any (fun p => p.1 = k) then
    fs.map (fun p => if p.1 = k then (k, v) else p)
  else fs ++ [(k, v)]

/-- The part_000 `A2AMessage` constructor; `uuid` and `ts` supply
`crypto.randomUUID()` and `new Date().toISOString()`. -/
def mk (env : Env) (uuid ts : String) (mtype : String) (content : JsonVal)
    (metadata : List (String × JsonVal)) : A2AMessage :=
  { id := uuid
    timestamp := ts
    protocol_version := "1.0"
    message_type := mtype
    sender := { agent_id := env.agentId, account_id := env.accountId }
    content := content
    metadata := objSet metadata "hedera_network" (.str "testnet") }

/-- The part_000 `A2AMessage.toJSON`. -/
def toJSON (m : A2AMessage) : JsonVal :=
  .obj
    [("id", .str m.id),
     ("timestamp", .str m.timestamp),
     ("protocol_version", .str m.protocol_version),
     ("message_type", .str m.message_type),
     ("sender", .obj
        [("agent_id", .str m.sender.agent_id),
         ("account_id", .str m.sender.account_id)]),
     ("content", m.content),
     ("metadata", .obj m.metadata)]

/-- The part_000 `A2AMessage.fromJSON` on already-parsed structured data: a
fresh message is constructed from `message_type` / `content` / `metadata`
and its `id`, `timestamp` and `sender` are then overwritten from the data.
Returns `none` when a field the overwrite reads is missing or of the wrong
shape (the JS object would carry `undefined` fields: a malformed envelope). -/
def fromJSON (env : Env) (uuid ts : String) (j : JsonVal) : Option A2AMessage :=
  match (j.get "message_type").bind JsonVal.asStr with
  | none => none
  | some mtype =>
    match j.get "content" with
    | none => none
    | some content =>
      let metadata : List (String × JsonVal) :=
        match j.get "metadata" with
        | some (.obj fs) => fs
        | _ => []
      let base := mk env uuid ts mtype content metadata
      match (j.get "id").bind JsonVal.asStr,
            (j.get "timestamp").bind JsonVal.asStr with
      | some i, some tstamp =>
        match j.get "sender" with
        | none => none
        | some sv =>
          match (sv.get "agent_id").bind JsonVal.asStr,
                (sv.get "account_id").bind JsonVal.asStr with
          | some aid, some acct =>
            some { base with
                     id := i
                     timestamp := tstamp
                     sender := { agent_id := aid, account_id := acct } }
          | _, _ => none
      | _, _ => none

end Part000

/- ---------------------------------------------------------------------
   Settlement: RealAgent.executePayment from demo.js.
   --------------------------------------------------------------------- -/

/-- The external ledger as the settlement adapter sees it: account balances
plus the list of transaction ids of transfers that actually executed. -/
structure Ledger where
  balances : String → ℚ
  executed : List String

/-- The insufficient-balance failure thrown by `executePayment`, carrying the
available and required amounts. -/
inductive PayError where
  | insufficientBalance : ℚ → ℚ → PayError
deriving DecidableEq

/-- Effect of an executed `TransferTransaction` debiting `fromAcct` and
crediting `toAcct`. -/
def applyTransfer (led : Ledger) (fromAcct toAcct : String) (amount : ℚ)
    (txId : String) : Ledger :=
  { balances := fun a =>
      if a = fromAcct then led.balances a - amount
      else if a = toAcct then led.balances a + amount
      else led.balances a
    executed := led.executed ++ [txId] }

/-- Embeds `RealAgent.executePayment` of demo.js: check the caller's balance,
throw an insufficient-balance error without touching the ledger when it is
short, otherwise execute the transfer and return its transaction id (`txId`
supplies the SDK-generated identifier). -/
def executePayment (led : Ledger) (accountId : String) (amount : ℚ)
    (recipient _memo txId : String) : Except PayError String × Ledger :=
  let balance := led.balances accountId
  if balance < amount then
    (.error (.insufficientBalance balance amount), led)
  else
    (.ok txId, applyTransfer led accountId recipient amount txId)

/-- The Provider's handler as composed with the world: the subscription
callback passes only the envelope, so the confirmation step has no access to
the ledger when it answers a `payment` notice. -/
def hotelHandleInWorld (_led : Ledger) (hotel : Hotel) (uuid : String)
    (m : Msg) : List Action :=
  hotelHandle hotel uuid m

/- ---------------------------------------------------------------------
   WebSocket orchestrator of index.js: the pendingRequests map.
   --------------------------------------------------------------------- -/

/-- An event touching the `pendingRequests` map of index.js: a tool call
registering a fresh request id with its resolver, the topic subscription
delivering raw message text, or a 10-second timer firing for a request id. -/
inductive OrchEvent where
  | register : String → OrchEvent
  | deliver : String → OrchEvent
  | timeout : String → OrchEvent
deriving DecidableEq

/-- State of the orchestrator: the keys of `pendingRequests`, plus the ghost
log of request ids whose waiting promise was resolved by a channel
response. -/
structure OrchState where
  pending : List String
  resolved : List String
deriving DecidableEq

/-- The resolution performed by the subscription callback once all guards
passed: only an id currently in the map resolves, and it is deleted in the
same step. -/
def deliverResolve (s : OrchState) (i : String) : OrchState :=
  if i ∈ s.pending then
    { pending := s.pending.erase i, resolved := i :: s.resolved }
  else s

/-- The id a delivered topic message may resolve: the guards of the index.js
subscription callback, in source order — the text parses, reading
`msg.message_type` does not throw and it strictly equals "response", reading
`msg.sender.account_id` does not throw and it differs from the
orchestrator's own account, and `msg.id` is a string (only then can
`pendingRequests.has(msg.id)` find it).  `none` when any guard fails,
including a caught parse or property-access error. -/
def deliverId (own : String) (contents : String) : Option String :=
  match jsonParse contents with
  | none => none
  | some v =>
    match jsGet v "message_type" with
    | none => none
    | some mt =>
      if jsEqStrOpt mt "response" then
        match jsGet v "sender" with
        | none => none
        | some senderOpt =>
          match senderOpt with
          | none => none
          | some sv =>
            match jsGet sv "account_id" with
            | none => none
            | some aidOpt =>
              if jsEqStrOpt aidOpt own then none
              else
                match jsGet v "id" with
                | none => none
                | some idOpt =>
                  match idOpt with
                  | some (.str i) => some i
                  | _ => none
      else none

/-- One transition of the index.js orchestrator.  `register` is
`pendingRequests.set(msg.id, resolve)` in `book_hotel` /
`get_travel_insurance`; `timeout` is the `setTimeout` callback deleting the
id (the pseudo-response it resolves is not a channel resolution); `deliver`
is the topic subscription callback: when all guards pass
(see `deliverId`), the id found in the map is resolved and deleted. -/
def orchStep (own : String) (s : OrchState) (e : OrchEvent) : OrchState :=
  match e with
  | .register i =>
    { s with pending := if i ∈ s.pending then s.pending else i :: s.pending }
  | .timeout i => { s with pending := s.pending.erase i }
  | .deliver contents =>
    match deliverId own contents with
    | none => s
    | some i => deliverResolve s i

/-- Runs the orchestrator over a sequence of events. -/
def orchRun (own : String) (s : OrchState) (es : List OrchEvent) : OrchState :=
  es.foldl (orchStep own) s

/- ---------------------------------------------------------------------
   Concrete inputs used by the witness and counterexample theorems.
   --------------------------------------------------------------------- -/

/-- Envelope literal used to instantiate handler theorems on concrete
inputs. -/
def demoMsg (t acct : String) (c : JsonVal) : Msg :=
  { id := "11111111-2222-3333-4444-555555555555"
    timestamp := "2025-06-01T00:00:00.000Z"
    protocol_version := "1.0"
    message_type := t
    sender := { agent_id := "demo-agent", account_id := acct }
    content := c }

/-- A booking request for 2025-03-10 → 2025-03-12 (two nights). -/
def reqMsgW : Msg :=
  demoMsg "request" "0.0.1001" (.obj
    [("service", .str "hotel_booking"),
     ("details", .obj
        [("check_in", .str "2025-03-10"), ("check_out", .str "2025-03-12")])])

/-- A booking request for 2025-01-01 → 2025-01-04 (three whole days). -/
def cexReq : Msg :=
  demoMsg "request" "0.0.1001" (.obj
    [("service", .str "hotel_booking"),
     ("details", .obj
        [("check_in", .str "2025-01-01"), ("check_out", .str "2025-01-04")])])

/-- A ledger with 3 HBAR on account 0.0.100 and 10 HBAR elsewhere. -/
def demoLedger : Ledger :=
  { balances := fun a => if a = "0.0.100" then 3 else 10, executed := [] }

/-- Wire text of a response envelope for request id req1 from account
0.0.2002. -/
def demoResponseText : String :=
  "\x7b\"message_type\":\"response\",\"sender\":\x7b\"account_id\":\"0.0.2002\"\x7d,\"id\":\"req1\"\x7d"

/-- One registration of req1 followed by a duplicate delivery of the same
response (at-least-once channel delivery). -/
def demoTrace : List OrchEvent :=
  [.register "req1", .deliver demoResponseText, .deliver demoResponseText]

/- ---------------------------------------------------------------------
   Helper lemmas.
   --------------------------------------------------------------------- -/

/-- The integer ceiling-division the Provider computes coincides with the
rational ceiling of the whole-day difference. -/
theorem jsCeilDiv_eq_ceil (a : ℤ) (b : ℕ) :
    jsCeilDiv a b = ⌈(a : ℚ) / ((b : ℕ) : ℚ)⌉ := by
  unfold jsCeilDiv
  rw [Int.fdiv_eq_ediv _ (Int.natCast_nonneg b)]
  have h := Rat.floor_intCast_div_natCast (-a) b
  rw [← h]
  rw [show (((-a : ℤ) : ℚ)) = -(a : ℚ) by push_cast; ring]
  rw [neg_div, Int.floor_neg, neg_neg]

/- ---------------------------------------------------------------------
   Claim theorems.
   --------------------------------------------------------------------- -/

/-- C1: for every negotiation envelope carrying a counter_offer, the Provider
accepts when `counter_offer.total_price` is at least its minimum price,
answering with status accepted and `final_offer.total_price` equal to the
counter-offer price, and otherwise rejects, echoing its own minimum price
unchanged in `minimum_price`.  Stated for the runAgents.js Provider with its
catalog minimum and for the part_004 variant with its constant minimum 4. -/
theorem counter_offer_threshold (hotel : Hotel) (uuid : String) (m : Msg)
    (co : JsonVal) (p : ℚ)
    (hm : m.message_type = "negotiation")
    (hco : m.content.get "counter_offer" = some co)
    (hp : (co.get "total_price").bind JsonVal.asNum = some p) :
    (hotel.minPrice ≤ p →
      hotelHandle hotel uuid m =
        [Action.publish "negotiation" (.obj
          [("final_offer", JsonVal.obj
             [("total_price", .num p), ("currency", .str "HBAR")]),
           ("status", .str "accepted")])]) ∧
    (p < hotel.minPrice →
      hotelHandle hotel uuid m =
        [Action.publish "negotiation" (.obj
          [("status", .str "rejected"),
           ("rejected_price", .num p),
           ("minimum_price", .num hotel.minPrice)])]) ∧
    ((4 : ℚ) ≤ p →
      hotelHandleP4 uuid m =
        [Action.publish "negotiation" (.obj
          [("final_offer", JsonVal.obj
             [("total_price", .num p), ("currency", .str "HBAR")]),
           ("status", .str "accepted")])]) ∧
    (p < (4 : ℚ) →
      hotelHandleP4 uuid m =
        [Action.publish "negotiation" (.obj
          [("status", .str "rejected"),
           ("minimum_price", .num 4)])]) := by
  obtain ⟨fs, rfl⟩ : ∃ fs, co = JsonVal.obj fs := by
    cases co <;> simp [JsonVal.get] at hp
    exact ⟨_, rfl⟩
  refine ⟨fun h => ?_, fun h => ?_, fun h => ?_, fun h => ?_⟩
  · simp [hotelHandle, hm, hco, hp, truthyOpt, JsonVal.truthy, h]
  · simp [hotelHandle, hm, hco, hp, truthyOpt, JsonVal.truthy, not_le.mpr h]
  · simp [hotelHandleP4, hm, hco, hp, truthyOpt, JsonVal.truthy, h]
  · simp [hotelHandleP4, hm, hco, hp, truthyOpt, JsonVal.truthy, not_le.mpr h]

/-- C1 witness: spec Scenario A (counter 5 against minimum 4 is accepted with
final offer 5) and Scenario B (counter 2 against minimum 4 is rejected with
minimum_price 4), on both embedded Provider variants. -/
theorem counter_offer_threshold_witness :
    (hotelHandle ⟨3, 4⟩ "u" (demoMsg "negotiation" "0.0.9" (.obj
        [("counter_offer", .obj
           [("total_price", .num 5), ("currency", .str "HBAR")]),
         ("original_price", .num 6)])) =
      [Action.publish "negotiation" (.obj
        [("final_offer", JsonVal.obj
           [("total_price", .num 5), ("currency", .str "HBAR")]),
         ("status", .str "accepted")])]) ∧
    (hotelHandle ⟨3, 4⟩ "u" (demoMsg "negotiation" "0.0.9" (.obj
        [("counter_offer", .obj [("total_price", .num 2)])])) =
      [Action.publish "negotiation" (.obj
        [("status", .str "rejected"),
         ("rejected_price", .num 2),
         ("minimum_price", .num 4)])]) ∧
    (hotelHandleP4 "u" (demoMsg "negotiation" "0.0.9" (.obj
        [("counter_offer", .obj [("total_price", .num 2)])])) =
      [Action.publish "negotiation" (.obj
        [("status", .str "rejected"),
         ("minimum_price", .num 4)])]) :=
  ⟨(counter_offer_threshold ⟨3, 4⟩ "u"
      (demoMsg "negotiation" "0.0.9" (.obj
        [("counter_offer", .obj
           [("total_price", .num 5), ("currency", .str "HBAR")]),
         ("original_price", .num 6)]))
      (.obj [("total_price", .num 5), ("currency", .str "HBAR")])
      5 rfl rfl rfl).1 (by norm_num),
   (counter_offer_threshold ⟨3, 4⟩ "u"
      (demoMsg "negotiation" "0.0.9" (.obj
        [("counter_offer", .obj [("total_price", .num 2)])]))
      (.obj [("total_price", .num 2)])
      2 rfl rfl rfl).2.1 (by norm_num),
   (counter_offer_threshold ⟨3, 4⟩ "u"
      (demoMsg "negotiation" "0.0.9" (.obj
        [("counter_offer", .obj [("total_price", .num 2)])]))
      (.obj [("total_price", .num 2)])
      2 rfl rfl rfl).2.2.2 (by norm_num)⟩

/-- C2: in the AwaitingNegotiationResult state, a negotiation envelope with
status accepted makes the Requester publish a payment notice for the accepted
amount, invoke the settlement adapter with an HBAR transfer of that amount to
the Provider's account, and move to AwaitingConfirmation. -/
theorem accepted_negotiation_triggers_payment (userOffer price : ℚ) (m : Msg)
    (hm : m.message_type = "negotiation")
    (hs : contentStr m "status" = some "accepted")
    (hp : ((m.content.get "final_offer").bind
             (fun v => v.get "total_price")).bind JsonVal.asNum = some price) :
    travelStep userOffer ReqState.AwaitingNegotiationResult m =
      (ReqState.AwaitingConfirmation,
       [Action.publish "payment" (paymentNoticeContent price m.sender.account_id),
        Action.pay price m.sender.account_id "A2A Hotel Booking"]) := by
  simp [travelStep, requesterNextState, travelHandle, hm, hs, hp]

/-- C2 witness: an accepted final offer of 5 HBAR from account 0.0.2002 makes
the Requester publish the payment notice and transfer 5 HBAR to 0.0.2002. -/
theorem accepted_negotiation_triggers_payment_witness :
    travelStep 5 ReqState.AwaitingNegotiationResult
        (demoMsg "negotiation" "0.0.2002" (.obj
          [("final_offer", .obj
             [("total_price", .num 5), ("currency", .str "HBAR")]),
           ("status", .str "accepted")])) =
      (ReqState.AwaitingConfirmation,
       [Action.publish "payment" (paymentNoticeContent 5 "0.0.2002"),
        Action.pay 5 "0.0.2002" "A2A Hotel Booking"]) :=
  accepted_negotiation_triggers_payment 5 5 _ rfl rfl rfl

/-- C4: a payment envelope makes the Provider answer, for every possible
ledger state (no settlement verification is available to it), with a response
of status confirmed whose `booking_details.total_paid` echoes the amount
stated in the payment message (suffixed with the currency).  Stated for the
runAgents.js Provider and the part_004 variant. -/
theorem payment_confirmed_unconditionally (led : Ledger) (hotel : Hotel)
    (uuid : String) (m : Msg) (s : String)
    (hm : m.message_type = "payment")
    (ha : m.content.get "amount" = some (.str s)) :
    hotelHandleInWorld led hotel uuid m =
      [Action.publish "response" (.obj
        [("status", .str "confirmed"),
         ("booking_details", JsonVal.obj
           [("confirmation_number", .str ("CONF-" ++ uuid.take 8)),
            ("total_paid", .str (s ++ " HBAR"))])])] ∧
    hotelHandleP4 uuid m =
      [Action.publish "response" (.obj
        [("status", .str "confirmed"),
         ("booking_details", JsonVal.obj
           [("confirmation_number", .str ("CONF-" ++ uuid.take 8)),
            ("total_paid", .str (s ++ " HBAR"))])])] := by
  constructor <;>
    simp [hotelHandleInWorld, hotelHandle, hotelHandleP4, contentStr, hm, ha,
      truthyOpt, jsToStr]

/-- C4 witness: a payment notice of 5 HBAR is confirmed with total_paid
"5 HBAR" on an arbitrary concrete ledger (here: demoLedger, on which no
transfer was executed at all). -/
theorem payment_confirmed_unconditionally_witness :
    hotelHandleInWorld demoLedger ⟨3, 4⟩ "u"
        (demoMsg "payment" "0.0.9" (.obj [("amount", .str "5")])) =
      [Action.publish "response" (.obj
        [("status", .str "confirmed"),
         ("booking_details", JsonVal.obj
           [("confirmation_number", .str ("CONF-" ++ String.take "u" 8)),
            ("total_paid", .str "5 HBAR")])])] :=
  (payment_confirmed_unconditionally demoLedger ⟨3, 4⟩ "u"
    (demoMsg "payment" "0.0.9" (.obj [("amount", .str "5")])) "5" rfl rfl).1

/-- C6: on an availability response, the Requester accepts at the offered
total when it is within its budget (`accepted_price` equals the offered
total), and otherwise counters with exactly its budget as
`counter_offer.total_price`. -/
theorem available_offer_accept_or_counter (userOffer : ℚ) (m : Msg)
    (opt : JsonVal) (p : ℚ)
    (hm : m.message_type = "response")
    (hs : contentStr m "status" = some "available")
    (hopt : (m.content.get "options").bind (fun v => v.idx 0) = some opt)
    (hp : (opt.get "total_price").bind JsonVal.asNum = some p) :
    (p ≤ userOffer →
      travelHandle userOffer m =
        [Action.publish "acceptance" (.obj
          ([("accepted_price", .num p), ("currency", .str "HBAR")] ++
           optField "booking_reference" (m.content.get "booking_reference")))]) ∧
    (userOffer < p →
      travelHandle userOffer m =
        [Action.publish "negotiation" (.obj
          [("counter_offer", JsonVal.obj
             [("total_price", .num userOffer), ("currency", .str "HBAR")]),
           ("original_price", .num p)])]) := by
  refine ⟨fun h => ?_, fun h => ?_⟩
  · simp [travelHandle, hm, hs, hopt, hp, h]
  · simp [travelHandle, hm, hs, hopt, hp, not_le.mpr h]

/-- C6 witness: with budget 5, an offered total of 4 is accepted at 4, and an
offered total of 6 is countered at exactly 5 (the spec Scenario A opening). -/
theorem available_offer_accept_or_counter_witness :
    (travelHandle 5 (demoMsg "response" "0.0.9" (.obj
        [("status", .str "available"),
         ("options", .arr [.obj [("total_price", .num 4)]]),
         ("booking_reference", .str "HOTEL-xyz")])) =
      [Action.publish "acceptance" (.obj
        [("accepted_price", .num 4), ("currency", .str "HBAR"),
         ("booking_reference", .str "HOTEL-xyz")])]) ∧
    (travelHandle 5 (demoMsg "response" "0.0.9" (.obj
        [("status", .str "available"),
         ("options", .arr [.obj [("total_price", .num 6)]]),
         ("booking_reference", .str "HOTEL-xyz")])) =
      [Action.publish "negotiation" (.obj
        [("counter_offer", JsonVal.obj
           [("total_price", .num 5), ("currency", .str "HBAR")]),
         ("original_price", .num 6)])]) :=
  ⟨(available_offer_accept_or_counter 5
      (demoMsg "response" "0.0.9" (.obj
        [("status", .str "available"),
         ("options", .arr [.obj [("total_price", .num 4)]]),
         ("booking_reference", .str "HOTEL-xyz")]))
      (.obj [("total_price", .num 4)])
      4 rfl rfl rfl rfl).1 (by norm_num),
   (available_offer_accept_or_counter 5
      (demoMsg "response" "0.0.9" (.obj
        [("status", .str "available"),
         ("options", .arr [.obj [("total_price", .num 6)]]),
         ("booking_reference", .str "HOTEL-xyz")]))
      (.obj [("total_price", .num 6)])
      6 rfl rfl rfl rfl).2 (by norm_num)⟩

/-- C3 (amended): for the runAgents.js Provider and every request envelope
with valid dates, `check_in < check_out`, the offered `total_nights` equals
the ceiling of the whole-day difference between check-out and check-in, and
the offered `total_price` equals `price_per_night × total_nights`.  (The
part_004 / index.js Provider variants instead answer with a fixed two-night
offer; see the counterexample.) -/
theorem nights_ceiling_runAgents (hotel : Hotel) (uuid : String) (m : Msg)
    (d : JsonVal) (s1 s2 : String) (t1 t2 : ℤ)
    (hm : m.message_type = "request")
    (hd : m.content.get "details" = some d)
    (h1 : d.get "check_in" = some (.str s1))
    (h2 : d.get "check_out" = some (.str s2))
    (hp1 : parseDate s1 = some t1)
    (hp2 : parseDate s2 = some t2)
    (hlt : t1 < t2) :
    offeredField (hotelHandle hotel uuid m) "total_nights" =
      some (.num ((⌈((t2 - t1 : ℤ) : ℚ) / ((86400000 : ℕ) : ℚ)⌉ : ℤ) : ℚ)) ∧
    offeredField (hotelHandle hotel uuid m) "total_price" =
      some (.num (hotel.pricePerNight *
        ((⌈((t2 - t1 : ℤ) : ℚ) / ((86400000 : ℕ) : ℚ)⌉ : ℤ) : ℚ))) := by
  have hH : hotelHandle hotel uuid m =
      [Action.publish "response"
        (hotelOfferContent hotel uuid (jsCeilDiv (t2 - t1) 86400000))] := by
    simp [hotelHandle, hm, hd, dateOf, h1, h2, hp1, hp2, truthyOpt]
  rw [hH, ← jsCeilDiv_eq_ceil]
  exact ⟨rfl, rfl⟩

/-- C3 witness: a request for 2025-03-10 → 2025-03-12 at 3 HBAR per night is
offered as ⌈2 days⌉ = 2 nights at a 6 HBAR total. -/
theorem nights_ceiling_runAgents_witness :
    offeredField (hotelHandle ⟨3, 4⟩ "abcdefgh" reqMsgW) "total_nights" =
      some (.num ((⌈((1741737600000 - 1741564800000 : ℤ) : ℚ) /
        ((86400000 : ℕ) : ℚ)⌉ : ℤ) : ℚ)) ∧
    offeredField (hotelHandle ⟨3, 4⟩ "abcdefgh" reqMsgW) "total_price" =
      some (.num ((3 : ℚ) * ((⌈((1741737600000 - 1741564800000 : ℤ) : ℚ) /
        ((86400000 : ℕ) : ℚ)⌉ : ℤ) : ℚ))) :=
  nights_ceiling_runAgents ⟨3, 4⟩ "abcdefgh" reqMsgW
    (.obj [("check_in", .str "2025-03-10"), ("check_out", .str "2025-03-12")])
    "2025-03-10" "2025-03-12" 1741564800000 1741737600000
    rfl rfl rfl rfl (by decide) (by decide) (by decide)

/-- C3 counterexample: the part_004 / index.js Provider, on a valid request
spanning three whole days (2025-01-01 → 2025-01-04, ceiling 3), offers
`total_nights = 2`, so the claim as stated fails on that cited variant. -/
theorem nights_fixed_variant_counterexample :
    parseDate "2025-01-01" = some 1735689600000 ∧
    parseDate "2025-01-04" = some 1735948800000 ∧
    (⌈((1735948800000 - 1735689600000 : ℤ) : ℚ) / ((86400000 : ℕ) : ℚ)⌉ : ℤ) = 3 ∧
    offeredField (hotelHandleP4 "00000000" cexReq) "total_nights" =
      some (JsonVal.num 2) ∧
    (2 : ℚ) ≠ ((3 : ℤ) : ℚ) := by
  refine ⟨by decide, by decide, ?_, rfl, by norm_num⟩
  rw [← jsCeilDiv_eq_ceil]
  decide

/-- C5: serializing a part_000 envelope with `toJSON` and deserializing the
structured result with `fromJSON` yields an envelope whose id, message_type,
sender and content are equal to the original's. -/
theorem toJSON_fromJSON_roundtrip (env : Part000.Env) (uuid ts : String)
    (m : Part000.A2AMessage) :
    ∃ m' : Part000.A2AMessage,
      Part000.fromJSON env uuid ts (Part000.toJSON m) = some m' ∧
        m'.id = m.id ∧ m'.message_type = m.message_type ∧
        m'.sender = m.sender ∧ m'.content = m.content :=
  ⟨_, rfl, rfl, rfl, rfl, rfl⟩

/-- C7: a topic message whose bytes do not parse as well-formed structured
data is discarded silently by the subscription callback: no handler is
invoked and `receivedMessages` is unchanged (the embedded step is total, so
no error escapes). -/
theorem malformed_bytes_discarded (accountId : String) (st : List JsonVal)
    (contents : String)
    (h : jsonParse contents = none) :
    receiveStep accountId st contents = (st, none) := by
  unfold receiveStep
  rw [h]

/-- C7 witness: the byte sequence "not a json envelope" is dropped without
invoking any handler, leaving receivedMessages as it was. -/
theorem malformed_bytes_discarded_witness :
    receiveStep "0.0.1001" [] "not a json envelope" = ([], none) :=
  malformed_bytes_discarded "0.0.1001" [] "not a json envelope" rfl

/-- C8: an envelope whose `sender.account_id` equals the listening agent's
own accountId is neither recorded in `receivedMessages` nor passed to
`handleMessage`. -/
theorem own_message_ignored (accountId : String) (st : List JsonVal)
    (contents : String) (v sv : JsonVal)
    (hparse : jsonParse contents = some v)
    (hsender : jsGet v "sender" = some (some sv))
    (hacct : jsGet sv "account_id" = some (some (.str accountId))) :
    receiveStep accountId st contents = (st, none) := by
  unfold receiveStep
  rw [hparse]
  simp [hsender, hacct, jsEqStrOpt]

/-- C8 witness: an envelope from account 0.0.7 delivered to the agent whose
own accountId is 0.0.7 is ignored. -/
theorem own_message_ignored_witness :
    receiveStep "0.0.7" []
      "\x7b\"sender\":\x7b\"account_id\":\"0.0.7\"\x7d\x7d" = ([], none) :=
  own_message_ignored "0.0.7" []
    "\x7b\"sender\":\x7b\"account_id\":\"0.0.7\"\x7d\x7d"
    (.obj [("sender", .obj [("account_id", .str "0.0.7")])])
    (.obj [("account_id", .str "0.0.7")])
    rfl rfl rfl

/-- C9: `executePayment` fails with an insufficient-balance error and leaves
the ledger untouched when the sender's available balance is strictly below
the requested amount, and otherwise executes the transfer and returns its
transaction id. -/
theorem executePayment_balance_check (led : Ledger)
    (accountId recipient memo txId : String) (amount : ℚ) :
    (led.balances accountId < amount →
      executePayment led accountId amount recipient memo txId =
        (.error (.insufficientBalance (led.balances accountId) amount), led)) ∧
    (amount ≤ led.balances accountId →
      executePayment led accountId amount recipient memo txId =
        (.ok txId, applyTransfer led accountId recipient amount txId)) := by
  refine ⟨fun h => ?_, fun h => ?_⟩
  · simp [executePayment, h]
  · simp [executePayment, not_lt.mpr h]

/-- C9 witness: paying 5 HBAR from account 0.0.100 (balance 3) fails with
the insufficient-balance error and an unchanged ledger, while paying 5 HBAR
from 0.0.200 (balance 10) executes and returns the transaction id. -/
theorem executePayment_balance_check_witness :
    executePayment demoLedger "0.0.100" 5 "0.0.200" "A2A demo" "tx1" =
      (.error (.insufficientBalance 3 5), demoLedger) ∧
    executePayment demoLedger "0.0.200" 5 "0.0.100" "A2A demo" "tx1" =
      (.ok "tx1", applyTransfer demoLedger "0.0.200" "0.0.100" 5 "tx1") :=
  ⟨(executePayment_balance_check demoLedger "0.0.100" "0.0.200" "A2A demo"
      "tx1" 5).1 (by decide),
   (executePayment_balance_check demoLedger "0.0.200" "0.0.100" "A2A demo"
      "tx1" 5).2 (by decide)⟩

/-- A delivery step either leaves the orchestrator state unchanged or
performs the guarded resolve-and-delete for some request id. -/
theorem orchStep_deliver_cases (own : String) (s : OrchState) (c : String) :
    orchStep own s (.deliver c) = s ∨
    ∃ j, orchStep own s (.deliver c) = deliverResolve s j := by
  simp only [orchStep]
  cases deliverId own c with
  | none => exact .inl rfl
  | some j => exact .inr ⟨j, rfl⟩

/-- The guarded resolve preserves the at-most-once accounting: resolutions of
an id plus its current pendency never grow, and the id stays pending at most
once. -/
theorem deliverResolve_bound (i j : String) (s : OrchState) (n : ℕ)
    (h1 : s.resolved.count i + s.pending.count i ≤ n)
    (h2 : s.pending.count i ≤ 1) :
    (deliverResolve s j).resolved.count i +
      (deliverResolve s j).pending.count i ≤ n ∧
    (deliverResolve s j).pending.count i ≤ 1 := by
  unfold deliverResolve
  split
  case isTrue hmem =>
    by_cases hij : i = j
    · subst hij
      have hpos : 0 < s.pending.count i := List.count_pos_iff.mpr hmem
      simp only [List.count_cons_self, List.count_erase_self]
      omega
    · simp only [List.count_cons_of_ne hij, List.count_erase_of_ne hij]
      omega
  case isFalse =>
    exact ⟨h1, h2⟩

/-- Every orchestrator step preserves the accounting, charging one
registration when the step is `register i`. -/
theorem orchStep_bound (own i : String) (s : OrchState) (n : ℕ) (e : OrchEvent)
    (h1 : s.resolved.count i + s.pending.count i ≤ n)
    (h2 : s.pending.count i ≤ 1) :
    (orchStep own s e).resolved.count i + (orchStep own s e).pending.count i ≤
      n + (if e = OrchEvent.register i then 1 else 0) ∧
    (orchStep own s e).pending.count i ≤ 1 := by
  cases e with
  | register j =>
    by_cases hij : j = i
    · subst hij
      simp only [orchStep]
      simp only [if_true]
      split
      · exact ⟨by omega, by omega⟩
      · next hmem =>
          have hz : s.pending.count j = 0 := List.count_eq_zero.mpr hmem
          simp only [List.count_cons_self]
          omega
    · have hne : OrchEvent.register j ≠ OrchEvent.register i := by
        intro hc
        exact hij (by injection hc)
      simp only [orchStep, if_neg hne]
      split
      · exact ⟨by omega, h2⟩
      · have hne2 : i ≠ j := fun hc => hij hc.symm
        simp only [List.count_cons_of_ne hne2]
        omega
  | timeout j =>
    have hne : OrchEvent.timeout j ≠ OrchEvent.register i := by
      intro hc
      cases hc
    simp only [orchStep, if_neg hne]
    by_cases hij : i = j
    · subst hij
      simp only [List.count_erase_self]
      omega
    · simp only [List.count_erase_of_ne hij]
      omega
  | deliver c =>
    have hne : OrchEvent.deliver c ≠ OrchEvent.register i := by
      intro hc
      cases hc
    rw [if_neg hne]
    rcases orchStep_deliver_cases own s c with hc | ⟨j, hc⟩ <;> rw [hc]
    · exact ⟨by omega, h2⟩
    · exact deliverResolve_bound i j s n (by omega) h2

/-- Running the orchestrator bounds resolutions of an id by the initial
charge plus the registrations of that id in the trace. -/
theorem orchRun_bound (own i : String) (es : List OrchEvent) :
    ∀ (s : OrchState) (n : ℕ),
      s.resolved.count i + s.pending.count i ≤ n →
      s.pending.count i ≤ 1 →
      (orchRun own s es).resolved.count i +
          (orchRun own s es).pending.count i ≤
        n + es.count (OrchEvent.register i) ∧
      (orchRun own s es).pending.count i ≤ 1 := by
  induction es with
  | nil =>
    intro s n h1 h2
    exact ⟨by simpa [orchRun] using h1, by simpa [orchRun] using h2⟩
  | cons e es ih =>
    intro s n h1 h2
    have hstep := orchStep_bound own i s n e h1 h2
    have htail := ih (orchStep own s e)
      (n + (if e = OrchEvent.register i then 1 else 0)) hstep.1 hstep.2
    have hrun : orchRun own s (e :: es) = orchRun own (orchStep own s e) es := rfl
    rw [hrun]
    by_cases he : e = OrchEvent.register i
    · rw [if_pos he] at htail
      have hcnt : (e :: es).count (OrchEvent.register i) =
          es.count (OrchEvent.register i) + 1 := by
        rw [he]
        exact List.count_cons_self _ _
      rw [hcnt]
      exact ⟨by omega, htail.2⟩
    · rw [if_neg he] at htail
      have hcnt : (e :: es).count (OrchEvent.register i) =
          es.count (OrchEvent.register i) := by
        refine List.count_cons_of_ne (fun hc => he hc.symm) es
      rw [hcnt]
      exact ⟨by omega, htail.2⟩

/-- C10: each pending request id is resolved at most once by the index.js
orchestrator: starting from the empty pendingRequests map, any event trace
that registers a given id at most once (ids are fresh UUIDs) resolves the
waiting promise with a channel response at most once, duplicate deliveries
included — a response resolves only while its id is in the map, and the id
is deleted in the same step (as it also is on timeout). -/
theorem pending_request_resolved_at_most_once (own : String)
    (es : List OrchEvent) (i : String)
    (h : es.count (OrchEvent.register i) ≤ 1) :
    (orchRun own { pending := [], resolved := [] } es).resolved.count i ≤ 1 := by
  have hb := orchRun_bound own i es { pending := [], resolved := [] } 0
    (by simp) (by simp)
  obtain ⟨ha, _⟩ := hb
  omega

/-- C10 witness: registering req1 once and then delivering the same matching
response twice resolves it at most once. -/
theorem pending_request_resolved_at_most_once_witness :
    (orchRun "0.0.1111" { pending := [], resolved := [] }
        demoTrace).resolved.count "req1" ≤ 1 :=
  pending_request_resolved_at_most_once "0.0.1111" demoTrace "req1" (by decide)

end A2A
